import Mathlib

set_option autoImplicit false

/-!
Shallow embedding of the conversion core of `terraform-plugin-framework`
(early revision): the reflection/binding engine in `internal/reflect`
(`map.go`, `struct_tags.go`, `interfaces.go`, `diags.go`) and
`attr/value.go`.

Modelling conventions:
* Go `tftypes.Value` (the raw transport value) is `TFValue`; its type
  descriptor is `TFType`; the `interface{}` payloads handed to
  `tftypes.NewValue` / `tftypes.ValidateValue` are `Raw`.
* Go `reflect.Value` targets are `GoValue` with type descriptors `GoType`;
  nil maps / zero values of kinds the engine never inspects structurally
  are represented by the opaque constructor `GoValue.zero`.
* Fallible Go calls returning `(T, error)` are `Except String T`.
* The external recursive entry points `BuildValue` (into-native) and
  `FromValue` (native-to-Value), which live outside the embedded files,
  are passed to `Map` / `FromMap` as explicit function parameters, exactly
  as those functions invoke them.
* Go map iteration order is unspecified; the embedding iterates entries in
  list order.  None of the proved statements depend on a particular order
  except where the order of a concrete input list is given explicitly.
-/

/-- One step of a `tftypes.AttributePath`. -/
inductive PathStep where
  | attributeName (name : String)
  | elementKeyString (key : String)
  | elementKeyInt (i : Int)
deriving DecidableEq, Repr

/-- `tftypes.AttributePath`: an ordered sequence of steps. -/
structure AttrPath where
  steps : List PathStep
deriving DecidableEq, Repr

/-- `path.WithElementKeyString(key)`: append a map-element-key step. -/
def AttrPath.withElementKeyString (p : AttrPath) (key : String) : AttrPath :=
  ⟨p.steps ++ [PathStep.elementKeyString key]⟩

/-- `path.WithAttributeName(name)`: append a named-attribute step. -/
def AttrPath.withAttributeName (p : AttrPath) (name : String) : AttrPath :=
  ⟨p.steps ++ [PathStep.attributeName name]⟩

/-- The empty attribute path. -/
def AttrPath.empty : AttrPath := ⟨[]⟩

/-- `diag.Severity`. -/
inductive Severity where
  | error
  | warning
deriving DecidableEq, Repr

/-- Transport-neutral type descriptor (`tftypes.Type`), restricted to the
shapes the embedded functions traverse. -/
inductive TFType where
  | string
  | number
  | bool
  | map (elem : TFType)
deriving DecidableEq, Repr

/-- `t.String()`: rendering of a transport type for diagnostic messages. -/
def TFType.render : TFType → String
  | .string => "tftypes.String"
  | .number => "tftypes.Number"
  | .bool => "tftypes.Bool"
  | .map e => "tftypes.Map[" ++ e.render ++ "]"

/-- `t.Is(tftypes.Map{})`: the type is a map type. -/
def TFType.isMap : TFType → Bool
  | .map _ => true
  | _ => false

/-- A raw transport value (`tftypes.Value`): carries its type and is either
unknown, null, or a concrete scalar/map payload. -/
inductive TFValue where
  | unknown (ty : TFType)
  | null (ty : TFType)
  | str (s : String)
  | num (n : Int)
  | boolV (b : Bool)
  | mapV (elemTy : TFType) (elems : List (String × TFValue))

/-- `val.Type()`. -/
def TFValue.type : TFValue → TFType
  | .unknown ty => ty
  | .null ty => ty
  | .str _ => TFType.string
  | .num _ => TFType.number
  | .boolV _ => TFType.bool
  | .mapV elemTy _ => TFType.map elemTy

/-- `val.IsKnown()`: false exactly for the unknown value. -/
def TFValue.isKnown : TFValue → Bool
  | .unknown _ => false
  | _ => true

/-- `val.IsNull()`: true exactly for the null value. -/
def TFValue.isNull : TFValue → Bool
  | .null _ => true
  | _ => false

/-- The `interface{}` payload accepted by `tftypes.NewValue` and
`tftypes.ValidateValue`: `nil`, `tftypes.UnknownValue`, a scalar, or a
`map[string]tftypes.Value`. -/
inductive Raw where
  | null
  | unknown
  | strV (s : String)
  | numV (n : Int)
  | boolV (b : Bool)
  | mapV (elems : List (String × TFValue))

/-- `tftypes.ValidateValue(ty, raw)`: checks that the payload conforms to
the declared type (null and unknown conform to every type; map payloads
must be maps of elements whose own type is the declared element type). -/
def validateRaw : TFType → Raw → Except String Unit
  | _, .null => .ok ()
  | _, .unknown => .ok ()
  | .string, .strV _ => .ok ()
  | .number, .numV _ => .ok ()
  | .bool, .boolV _ => .ok ()
  | .map e, .mapV elems =>
      if elems.all (fun kv => kv.2.type = e) then .ok ()
      else .error "can't use value as map element type"
  | _, _ => .error "can't use value in type"

/-- `tftypes.NewValue(ty, raw)`: packs a validated payload into a value.
(`NewValue` panics on a non-conforming payload in Go; the embedded code
only calls it after `ValidateValue`, or with payloads that conform by
construction.) -/
def newValue : TFType → Raw → TFValue
  | ty, .null => .null ty
  | ty, .unknown => .unknown ty
  | _, .strV s => .str s
  | _, .numV n => .num n
  | _, .boolV b => .boolV b
  | ty, .mapV elems =>
      match ty with
      | .map e => .mapV e elems
      | other => .mapV other elems

/-- `val.As(&values)` for `values : map[string]tftypes.Value`: succeeds on a
known map value (a null map unmarshals to the empty/nil map); fails on
unknown values and on non-map values. -/
def TFValue.asMap : TFValue → Except String (List (String × TFValue))
  | .mapV _ elems => .ok elems
  | .null _ => .ok []
  | .unknown _ => .error "unmarshaling unknown values is not supported"
  | _ => .error "can't unmarshal value into map"

/-- Metadata of one Go struct field as seen by `getStructTags`: its Go
name, its `PkgPath` (nonempty exactly for unexported fields), and the
value of its `tfsdk` struct tag (empty when absent). -/
structure StructField where
  name : String
  pkgPath : String
  tfsdkTag : String
deriving DecidableEq, Repr

/-- Go type descriptor for native targets (`reflect.Type`), restricted to
the shapes the embedded functions inspect. -/
inductive GoType where
  | stringT
  | intT
  | boolT
  | mapT (elem : GoType)
  | ptrT (t : GoType)
  | structT (fields : List StructField)
  | attrT (name : String)
deriving DecidableEq, Repr

/-- `reflect.Kind`, restricted to the kinds the embedded functions test. -/
inductive GoKind where
  | string
  | int
  | bool
  | map
  | ptr
  | struct
  | other
deriving DecidableEq, Repr

/-- `t.Kind()`. -/
def GoType.kind : GoType → GoKind
  | .stringT => .string
  | .intT => .int
  | .boolT => .bool
  | .mapT _ => .map
  | .ptrT _ => .ptr
  | .structT _ => .struct
  | .attrT _ => .other

/-- `t.Elem()` of a map type (only called on map types by the embedded
code). -/
def GoType.elem : GoType → GoType
  | .mapT e => e
  | t => t

/-- Rendering of a Go type for diagnostic messages (`%s` / `%T`). -/
def GoType.render : GoType → String
  | .stringT => "string"
  | .intT => "int"
  | .boolT => "bool"
  | .mapT e => "map[string]" ++ e.render
  | .ptrT t => "*" ++ t.render
  | .structT _ => "struct"
  | .attrT n => n

/-- `attr.Value`, as observed by the embedded callers: the concrete Go type
of the value (`reflect.TypeOf`), the transport type of its owning `attr.Type`
(`val.Type(ctx).TerraformType(ctx)`), and the result of
`val.ToTerraformValue(ctx)`. -/
structure AttrValue where
  goType : GoType
  tfType : TFType
  toRaw : Except String Raw

/-- A `diag.Diagnostic`, restricted to the variants produced by the embedded
code: generic attribute errors/warnings (`AddAttributeError`,
`NewAttributeErrorDiagnostic`, validate-hook output) and the two structured
diagnostics of `diags.go`. -/
inductive Diagnostic where
  | attrError (path : AttrPath) (summary : String) (detail : String)
  | attrWarning (path : AttrPath) (summary : String) (detail : String)
  | intoIncompatibleType (val : TFValue) (targetType : GoType) (path : AttrPath) (err : String)
  | newAttributeValueIntoWrongType (valType : GoType) (targetType : GoType) (schemaType : String) (path : AttrPath)

/-- `d.Severity()`: every embedded diagnostic variant except warnings has
error severity (`DiagIntoIncompatibleType.Severity` and
`DiagNewAttributeValueIntoWrongType.Severity` both return error). -/
def Diagnostic.severity : Diagnostic → Severity
  | .attrWarning _ _ _ => Severity.warning
  | _ => Severity.error

/-- Whether a diagnostic has error severity. -/
def Diagnostic.isErrorSeverity (d : Diagnostic) : Bool :=
  match d.severity with
  | .error => true
  | .warning => false

/-- `diags.HasError()`: true iff some member has error severity. -/
def hasError (diags : List Diagnostic) : Bool :=
  diags.any Diagnostic.isErrorSeverity

/-- `toTerraform5ValueErrorDiag` from `diags.go`. -/
def toTerraform5ValueErrorDiag (err : String) (path : AttrPath) : Diagnostic :=
  Diagnostic.attrError path "Value Conversion Error"
    ("An unexpected error was encountered trying to convert into a Terraform value. This is always an error in the provider. Please report the following to the provider developer:\n\n" ++ err)

/-- `toTerraformValueErrorDiag` from `diags.go`. -/
def toTerraformValueErrorDiag (err : String) (path : AttrPath) : Diagnostic :=
  Diagnostic.attrError path "Value Conversion Error"
    ("An unexpected error was encountered trying to convert the Attribute value into a Terraform value. This is always an error in the provider. Please report the following to the provider developer:\n\n" ++ err)

/-- `validateValueErrorDiag` from `diags.go`. -/
def validateValueErrorDiag (err : String) (path : AttrPath) : Diagnostic :=
  Diagnostic.attrError path "Value Conversion Error"
    ("An unexpected error was encountered trying to validate the Terraform value type. This is always an error in the provider. Please report the following to the provider developer:\n\n" ++ err)

/-- `valueFromTerraformErrorDiag` from `diags.go`. -/
def valueFromTerraformErrorDiag (err : String) (path : AttrPath) : Diagnostic :=
  Diagnostic.attrError path "Value Conversion Error"
    ("An unexpected error was encountered trying to convert the Terraform value. This is always an error in the provider. Please report the following to the provider developer:\n\n" ++ err)

/-- `attr.Type`, as observed by the embedded callers: a name (for `%T`
renderings), `TerraformType(ctx)`, `ValueFromTerraform(ctx, val)`, the
optional `attr.TypeWithValidate` hook, and the optional
`attr.TypeWithElementType` accessor (present exactly when the Go type
assertion `typ.(attr.TypeWithElementType)` succeeds). -/
inductive AttrType where
  | mk (name : String)
       (terraformType : TFType)
       (valueFromTerraform : TFValue → Except String AttrValue)
       (validate : Option (TFValue → AttrPath → List Diagnostic))
       (elementType : Option AttrType)

/-- The name of an `attr.Type` (its `%T` rendering). -/
def AttrType.name : AttrType → String
  | .mk n _ _ _ _ => n

/-- `typ.TerraformType(ctx)`. -/
def AttrType.terraformType : AttrType → TFType
  | .mk _ t _ _ _ => t

/-- `typ.ValueFromTerraform(ctx, val)`. -/
def AttrType.valueFromTerraform : AttrType → TFValue → Except String AttrValue
  | .mk _ _ f _ _ => f

/-- The optional `attr.TypeWithValidate` hook of a type. -/
def AttrType.validate : AttrType → Option (TFValue → AttrPath → List Diagnostic)
  | .mk _ _ _ v _ => v

/-- The optional `attr.TypeWithElementType` accessor of a type. -/
def AttrType.elementType : AttrType → Option AttrType
  | .mk _ _ _ _ e => e

/-- A placeholder `attr.Type` used only to give `AttrType.elementTypeD` a
total type; the embedded callers of `ElementType()` only run on types whose
element type is present. -/
def attrTypeNone : AttrType :=
  AttrType.mk "" TFType.string (fun _ => Except.error "no conversion") none none

/-- `typ.ElementType()` for a `typ` statically known to implement
`attr.TypeWithElementType` (as in `FromMap`'s signature). -/
def AttrType.elementTypeD (t : AttrType) : AttrType :=
  t.elementType.getD attrTypeNone

/-- The diagnostics contributed by the `if typeWithValidate, ok :=
typ.(attr.TypeWithValidate); ok` pattern: the hook's output when the type
implements it, nothing otherwise. -/
def validateDiags (typ : AttrType) (val : TFValue) (path : AttrPath) : List Diagnostic :=
  match typ.validate with
  | some f => f val path
  | none => []

/-- A native Go value (`reflect.Value`), restricted to the shapes the
embedded functions inspect.  `zero ty` stands for a zero value of `ty`
whose structure the embedded code never reads (it is only passed on to the
recursive conversion parameter or has its type/kind inspected). -/
inductive GoValue where
  | str (s : String)
  | intV (n : Int)
  | boolV (b : Bool)
  | mapV (elemTy : GoType) (entries : List (String × GoValue))
  | ptrV (inner : GoValue)
  | attrV (v : AttrValue)
  | zero (ty : GoType)

/-- `v.Type()`. -/
def GoValue.type : GoValue → GoType
  | .str _ => GoType.stringT
  | .intV _ => GoType.intT
  | .boolV _ => GoType.boolT
  | .mapV e _ => GoType.mapT e
  | .ptrV v => GoType.ptrT v.type
  | .attrV v => v.goType
  | .zero ty => ty

/-- `v.Kind()`. -/
def GoValue.kind (v : GoValue) : GoKind :=
  v.type.kind

/-- `key.String()` of a string-kinded `reflect.Value` (only called on
string keys by the embedded code). -/
def GoValue.stringVal : GoValue → String
  | .str s => s
  | _ => ""

/-- `trueReflectValue` from `struct_tags.go`'s file: dereference all
pointers (and interfaces, which the embedding already represents
unwrapped) down to the concrete value. -/
def trueReflectValue : GoValue → GoValue
  | .ptrV v => trueReflectValue v
  | v => v

/-- `isValidFieldName`: the regex `^[a-z][a-z0-9_]*$`. -/
def isValidFieldName (name : String) : Bool :=
  match name.data with
  | [] => false
  | c :: rest =>
      ('a' ≤ c && c ≤ 'z') &&
      rest.all (fun d => ('a' ≤ d && d ≤ 'z') || ('0' ≤ d && d ≤ '9') || d = '_')

/-- Lookup in the accumulated `map[string]int` of `getStructTags`
(`other, ok := tags[tag]`). -/
def lookupTag (tags : List (String × Nat)) (tag : String) : Option Nat :=
  (tags.find? (fun p => p.1 = tag)).map Prod.snd

/-- A placeholder struct field for rendering the duplicate-tag message. -/
def structFieldNone : StructField := ⟨"", "", ""⟩

/-- The field loop of `getStructTags`: walks the fields of the struct type
in declaration order, skipping unexported fields and fields tagged `-`,
rejecting absent, invalid, and duplicate tags, and recording each
accepted tag with the index of its field. -/
def getStructTagsLoop (path : AttrPath) (allFields : List StructField) :
    List StructField → Nat → List (String × Nat) →
    Except (AttrPath × String) (List (String × Nat))
  | [], _, tags => .ok tags
  | field :: rest, i, tags =>
    if field.pkgPath ≠ "" then
      -- skip unexported fields
      getStructTagsLoop path allFields rest (i + 1) tags
    else
      let tag := field.tfsdkTag
      if tag = "-" then
        -- skip explicitly excluded fields
        getStructTagsLoop path allFields rest (i + 1) tags
      else if tag = "" then
        .error (path, "need a struct tag for \"tfsdk\" on " ++ field.name)
      else
        let path' := path.withAttributeName tag
        if ¬ isValidFieldName tag then
          .error (path', "invalid field name, must only use lowercase letters, underscores, and numbers, and must start with a letter")
        else
          match lookupTag tags tag with
          | some other =>
              .error (path', "can't use field name for both " ++
                ((allFields.getD other structFieldNone).name) ++ " and " ++ field.name)
          | none => getStructTagsLoop path allFields rest (i + 1) (tags ++ [(tag, i)])

/-- `getStructTags`: returns the map from Terraform field names to their
position in the tags of the struct `input`; `input` must be a struct. -/
def getStructTags (input : GoValue) (path : AttrPath) :
    Except (AttrPath × String) (List (String × Nat)) :=
  match (trueReflectValue input).type with
  | .structT fields => getStructTagsLoop path fields fields 0 []
  | t => .error (path, "can't get struct tags of " ++ t.render ++ ", is not a struct")

/-- The per-value state of a native capability-hook leaf: the unknown
flag, the null flag, and the stored concrete payload. -/
structure HookState where
  unknown : Bool
  null : Bool
  value : Raw

/-- The method set of a native leaf type as probed by
`receiver.MethodByName`: which of the capability-hook methods exist, and
the error each returns when called (the state change of a successful call
is modelled in the converters themselves, per the hook contracts).
`fromT5V` is `FromTerraform5Value`, which on success stores state derived
from the raw value it was handed. -/
structure HookMethods where
  hasSetUnknown : Bool
  hasSetNull : Bool
  hasFromT5V : Bool
  setUnknownErr : Bool → Option String
  setNullErr : Bool → Option String
  fromT5V : TFValue → Except String HookState

/-- The Go zero state of a hook-bearing leaf value. -/
def HookState.zero : HookState := ⟨false, false, Raw.null⟩

/-- A native capability-hook leaf value: its type's method set plus its
own state. -/
structure HookValue where
  methods : HookMethods
  state : HookState

/-- `pointerSafeZeroValue` (from the reflect helpers outside the embedded
files), as described by the doc comments of `NewUnknownable` /
`NewNullable` / `NewValueConverter`: a zero value of `target`'s type (or
of the concrete type it references, if it is a pointer). -/
def pointerSafeZeroValue (target : HookValue) : HookValue :=
  ⟨target.methods, HookState.zero⟩

/-- `NewUnknownable`: creates a zero value of `target` and calls its
`SetUnknown` method with `!val.IsKnown()`. -/
def NewUnknownable (typ : AttrType) (val : TFValue) (target : HookValue)
    (path : AttrPath) : HookValue × List Diagnostic :=
  let receiver := pointerSafeZeroValue target
  if ¬ receiver.methods.hasSetUnknown then
    (target, [Diagnostic.attrError path "Value Conversion Error"
      ("An unexpected error was encountered trying to convert value. This is always an error in the provider. Please report the following to the provider developer:\n\n" ++
       "cannot find SetUnknown method on type")])
  else
    match receiver.methods.setUnknownErr (!val.isKnown) with
    | some e =>
        (target, [Diagnostic.attrError path "Value Conversion Error"
          ("An unexpected error was encountered trying to convert into a value. This is always an error in the provider. Please report the following to the provider developer:\n\n" ++
           "reflection error: " ++ e)])
    | none =>
        (⟨receiver.methods, { receiver.state with unknown := !val.isKnown }⟩, [])

/-- `NewNullable`: creates a zero value of `target` and calls its
`SetNull` method with `val.IsNull()`. -/
def NewNullable (typ : AttrType) (val : TFValue) (target : HookValue)
    (path : AttrPath) : HookValue × List Diagnostic :=
  let receiver := pointerSafeZeroValue target
  if ¬ receiver.methods.hasSetNull then
    (target, [Diagnostic.attrError path "Value Conversion Error"
      ("An unexpected error was encountered trying to convert value. This is always an error in the provider. Please report the following to the provider developer:\n\n" ++
       "cannot find SetNull method on type")])
  else
    match receiver.methods.setNullErr val.isNull with
    | some e =>
        (target, [Diagnostic.attrError path "Value Conversion Error"
          ("An unexpected error was encountered trying to convert into a value. This is always an error in the provider. Please report the following to the provider developer:\n\n" ++
           "reflection error: " ++ e)])
    | none =>
        (⟨receiver.methods, { receiver.state with null := val.isNull }⟩, [])

/-- `NewValueConverter`: creates a zero value of `target` and calls its
`FromTerraform5Value` method with the raw value. -/
def NewValueConverter (typ : AttrType) (val : TFValue) (target : HookValue)
    (path : AttrPath) : HookValue × List Diagnostic :=
  let receiver := pointerSafeZeroValue target
  if ¬ receiver.methods.hasFromT5V then
    (target, [Diagnostic.attrError path "Value Conversion Error"
      ("An unexpected error was encountered trying to convert into a value. This is always an error in the provider. Please report the following to the provider developer:\n\n" ++
       "could not find FromTerraform5Type method on type")])
  else
    match receiver.methods.fromT5V val with
    | .error e =>
        (target, [Diagnostic.attrError path "Value Conversion Error"
          ("An unexpected error was encountered trying to convert into a value. This is always an error in the provider. Please report the following to the provider developer:\n\n" ++
           "reflection error: " ++ e)])
    | .ok st => (⟨receiver.methods, st⟩, [])

/-- The data of an `Unknownable` source value as read by `FromUnknownable`:
`GetUnknown(ctx)` and `GetValue(ctx)`. -/
structure UnknownableVal where
  unknown : Bool
  value : Raw

/-- `FromUnknownable`: creates an `attr.Value` from the data in an
`Unknownable`. -/
def FromUnknownable (typ : AttrType) (val : UnknownableVal) (path : AttrPath) :
    Option AttrValue × List Diagnostic :=
  if val.unknown then
    let tfVal := newValue typ.terraformType Raw.unknown
    let diags := validateDiags typ tfVal path
    if hasError diags then (none, diags)
    else
      match typ.valueFromTerraform tfVal with
      | .error e => (none, diags ++ [valueFromTerraformErrorDiag e path])
      | .ok res => (some res, [])
  else
    match validateRaw typ.terraformType val.value with
    | .error e => (none, [validateValueErrorDiag e path])
    | .ok _ =>
      let tfVal := newValue typ.terraformType val.value
      let diags := validateDiags typ tfVal path
      if hasError diags then (none, diags)
      else
        match typ.valueFromTerraform tfVal with
        | .error e => (none, diags ++ [valueFromTerraformErrorDiag e path])
        | .ok res => (some res, [])

/-- `NewAttributeValue`: creates a new native value by calling
`ValueFromTerraform` on `typ` (after the optional validate hook); errors if
the returned `attr.Value` is not the same type as `target`. -/
def NewAttributeValue (typ : AttrType) (val : TFValue) (target : GoValue)
    (path : AttrPath) : GoValue × List Diagnostic :=
  let diags := validateDiags typ val path
  if hasError diags then (target, diags)
  else
    match typ.valueFromTerraform val with
    | .error e => (target, diags ++ [valueFromTerraformErrorDiag e path])
    | .ok res =>
        if res.goType ≠ target.type then
          (target, diags ++ [Diagnostic.newAttributeValueIntoWrongType
            res.goType target.type typ.name path])
        else (GoValue.attrV res, diags)

/-- `FromAttributeValue`: creates an `attr.Value` from an `attr.Value`; it
returns the value it is passed, running the optional validate hook on the
value's raw rendering first. -/
def FromAttributeValue (typ : AttrType) (val : AttrValue) (path : AttrPath) :
    AttrValue × List Diagnostic :=
  match typ.validate with
  | some f =>
      match val.toRaw with
      | .error e => (val, [toTerraformValueErrorDiag e path])
      | .ok raw =>
          let diags := f (newValue typ.terraformType raw) path
          if hasError diags then (val, diags) else (val, diags)
  | none => (val, [])

/-- `attr.ValueToTerraform`: renders a Value to a raw transport value,
re-validating the payload against the Value's own Type first. -/
def ValueToTerraform (val : AttrValue) : Except String TFValue :=
  match val.toRaw with
  | .error e => .error e
  | .ok raw =>
      match validateRaw val.tfType raw with
      | .error e => .error e
      | .ok _ => .ok (newValue val.tfType raw)

/-- Whether an `Except` result is an error. -/
def exceptIsError {ε α : Type} : Except ε α → Bool
  | .error _ => true
  | .ok _ => false

/-- The element loop of `Map`: for each entry of the raw map, build a
native element value with the recursive converter `buildValue`, appending
its diagnostics; an error-severity diagnostic returns the original
`target`, otherwise the built element is stored under its key. -/
def mapLoop (buildValue : AttrType → TFValue → GoValue → AttrPath → GoValue × List Diagnostic)
    (elemAttrType : AttrType) (elemType : GoType) (target : GoValue) (path : AttrPath) :
    List (String × TFValue) → List Diagnostic → List (String × GoValue) →
    GoValue × List Diagnostic
  | [], diags, m => (GoValue.mapV elemType m, diags)
  | (key, value) :: rest, diags, m =>
    let targetValue := GoValue.zero elemType
    let path' := path.withElementKeyString key
    let built := buildValue elemAttrType value targetValue path'
    let diags' := diags ++ built.2
    if hasError diags' then (target, diags')
    else mapLoop buildValue elemAttrType elemType target path rest diags' (m ++ [(key, built.1)])

/-- `Map` from `internal/reflect/map.go`: creates a map value that matches
the type of `target` and populates it with the contents of `val`, using
the recursive converter `buildValue` (the `BuildValue` entry point) for
each element. -/
def Map (buildValue : AttrType → TFValue → GoValue → AttrPath → GoValue × List Diagnostic)
    (typ : AttrType) (val : TFValue) (target : GoValue) (path : AttrPath) :
    GoValue × List Diagnostic :=
  let underlyingValue := trueReflectValue target
  -- this only works with maps, so check that out first
  if underlyingValue.kind ≠ GoKind.map then
    (target, [Diagnostic.intoIncompatibleType val target.type path
      ("expected a map type, got " ++ target.type.render)])
  else if ¬ val.type.isMap then
    (target, [Diagnostic.intoIncompatibleType val target.type path
      ("cannot reflect " ++ val.type.render ++ " into a map, must be a map")])
  else
    match typ.elementType with
    | none =>
        (target, [Diagnostic.intoIncompatibleType val target.type path
          ("cannot reflect map using type information provided by " ++ typ.name ++
           ", " ++ typ.name ++ " must be an attr.TypeWithElementType")])
    | some elemAttrType =>
        match val.asMap with
        | .error e =>
            (target, [Diagnostic.intoIncompatibleType val target.type path e])
        | .ok values =>
            let elemType := underlyingValue.type.elem
            mapLoop buildValue elemAttrType elemType target path values [] []

/-- The per-entry pipeline outcome of `FromMap`'s element loop, as a
decidable success predicate: the key is string-kinded, the recursive
conversion reports no error, the converted value renders to a raw payload,
the payload validates against the element type's transport type, and the
enclosing map type's validate hook (run on the element value at the
element's path) reports no error. -/
def elemOk (fromValue : AttrType → GoValue → AttrPath → AttrValue × List Diagnostic)
    (typ elemType : AttrType) (path : AttrPath) (key gv : GoValue) : Bool :=
  key.kind = GoKind.string &&
  (let path' := path.withElementKeyString key.stringVal
   let converted := fromValue elemType gv path'
   !hasError converted.2 &&
   match converted.1.toRaw with
   | .error _ => false
   | .ok raw =>
       match validateRaw elemType.terraformType raw with
       | .error _ => false
       | .ok _ => !hasError (validateDiags typ (newValue elemType.terraformType raw) path'))

/-- The element loop of `FromMap`: converts each native entry to a raw
element value, aborting the whole map (with the accumulated diagnostics)
on a non-string key or on any per-element failure. -/
def fromMapLoop (fromValue : AttrType → GoValue → AttrPath → AttrValue × List Diagnostic)
    (typ elemType : AttrType) (path : AttrPath) :
    List (GoValue × GoValue) → List Diagnostic → List (String × TFValue) →
    Except (List Diagnostic) (List (String × TFValue) × List Diagnostic)
  | [], diags, tfElems => .ok (tfElems, diags)
  | (key, gv) :: rest, diags, tfElems =>
    if key.kind ≠ GoKind.string then
      .error (diags ++ [Diagnostic.attrError path "Value Conversion Error"
        ("An unexpected error was encountered trying to convert into a Terraform value. This is always an error in the provider. Please report the following to the provider developer:\n\n" ++
         "map keys must be strings, got " ++ key.type.render)])
    else
      let converted := fromValue elemType gv (path.withElementKeyString key.stringVal)
      let diags' := diags ++ converted.2
      if hasError diags' then .error diags'
      else
        match converted.1.toRaw with
        | .error e => .error (diags' ++ [toTerraformValueErrorDiag e path])
        | .ok tfRaw =>
            let tfElemType := elemType.terraformType
            match validateRaw tfElemType tfRaw with
            | .error e => .error (diags' ++ [validateValueErrorDiag e path])
            | .ok _ =>
                let tfElemVal := newValue tfElemType tfRaw
                let diags'' := diags' ++
                  validateDiags typ tfElemVal (path.withElementKeyString key.stringVal)
                if hasError diags'' then .error diags''
                else fromMapLoop fromValue typ elemType path rest diags''
                  (tfElems ++ [(key.stringVal, tfElemVal)])

/-- A native Go map as handed to `FromMap`: its element type, whether the
map itself is nil, and its entries (keys need not be string-kinded). -/
structure NativeMapVal where
  elemTy : GoType
  isNil : Bool
  entries : List (GoValue × GoValue)

/-- `FromMap` from `internal/reflect/map.go`: returns an `attr.Value`
representing the data contained in the native map `val`, converting each
entry with the recursive converter `fromValue` (the `FromValue` entry
point); the `attr.Value` is produced by `typ`, which implements
`attr.TypeWithElementType`. -/
def FromMap (fromValue : AttrType → GoValue → AttrPath → AttrValue × List Diagnostic)
    (typ : AttrType) (val : NativeMapVal) (path : AttrPath) :
    Option AttrValue × List Diagnostic :=
  let tfType := typ.terraformType
  if val.isNil then
    let tfVal := newValue tfType Raw.null
    let diags := validateDiags typ tfVal path
    if hasError diags then (none, diags)
    else
      match typ.valueFromTerraform tfVal with
      | .error e =>
          (none, diags ++ [Diagnostic.attrError path "Value Conversion Error"
            ("An unexpected error was encountered trying to convert from map value. This is always an error in the provider. Please report the following to the provider developer:\n\n" ++ e)])
      | .ok attrVal => (some attrVal, diags)
  else
    match fromMapLoop fromValue typ typ.elementTypeD path val.entries [] [] with
    | .error diags => (none, diags)
    | .ok (tfElems, diags) =>
        match validateRaw tfType (Raw.mapV tfElems) with
        | .error e => (none, diags ++ [validateValueErrorDiag e path])
        | .ok _ =>
            let tfVal := newValue tfType (Raw.mapV tfElems)
            let diags' := diags ++ validateDiags typ tfVal path
            if hasError diags' then (none, diags')
            else
              match typ.valueFromTerraform tfVal with
              | .error e =>
                  (none, diags' ++ [Diagnostic.attrError path "Value Conversion Error"
                    ("An unexpected error was encountered trying to convert to map value. This is always an error in the provider. Please report the following to the provider developer:\n\n" ++ e)])
              | .ok attrVal => (some attrVal, diags')

/-- A hookless string `attr.Type` used as a concrete instance in witnesses. -/
def strType : AttrType :=
  AttrType.mk "types.StringType" TFType.string
    (fun v =>
      match v with
      | TFValue.str s =>
          Except.ok ⟨GoType.attrT "types.String", TFType.string, Except.ok (Raw.strV s)⟩
      | TFValue.null _ =>
          Except.ok ⟨GoType.attrT "types.String", TFType.string, Except.ok Raw.null⟩
      | TFValue.unknown _ =>
          Except.ok ⟨GoType.attrT "types.String", TFType.string, Except.ok Raw.unknown⟩
      | _ => Except.error "expected a string value")
    none none

/-- A map-of-string `attr.Type` (implements `attr.TypeWithElementType`)
used as a concrete instance in witnesses. -/
def mapStrType : AttrType :=
  AttrType.mk "types.MapType" (TFType.map TFType.string)
    (fun v =>
      match v with
      | TFValue.mapV e elems =>
          Except.ok ⟨GoType.attrT "types.Map", TFType.map TFType.string,
            Except.ok (Raw.mapV ((TFValue.mapV e elems).asMap.toOption.getD []))⟩
      | _ => Except.error "expected a map value")
    none (some strType)

/-- A concrete recursive converter for `Map` witnesses: strings convert,
everything else produces an error diagnostic at the element's path. -/
def buildStrOnly : AttrType → TFValue → GoValue → AttrPath → GoValue × List Diagnostic :=
  fun _ v tgt p =>
    match v with
    | TFValue.str s => (GoValue.str s, [])
    | _ => (tgt, [Diagnostic.attrError p "Value Conversion Error" "bad element"])

/-- A concrete recursive converter for `FromMap` witnesses: renders any
native value as a string `attr.Value`. -/
def fromStrOnly : AttrType → GoValue → AttrPath → AttrValue × List Diagnostic :=
  fun _ gv _ =>
    (⟨GoType.attrT "types.String", TFType.string, Except.ok (Raw.strV gv.stringVal)⟩, [])

/-- `hasError` distributes over append (diag collections concatenate
preserving order). -/
theorem hasError_append (a b : List Diagnostic) :
    hasError (a ++ b) = (hasError a || hasError b) := by
  simp [hasError, List.any_append]

/-- C8: `ValueToTerraform` re-validates the round trip of a Value's
`ToTerraformValue` output: it fails exactly when `ToTerraformValue` fails
or the produced raw payload does not satisfy the raw shape of the Value's
own Type, and otherwise returns the raw transport value built from that
Type and payload. -/
theorem valueToTerraform_revalidates (val : AttrValue) :
    (exceptIsError (ValueToTerraform val) = true ↔
      (exceptIsError val.toRaw = true ∨
        ∃ raw, val.toRaw = Except.ok raw ∧
          exceptIsError (validateRaw val.tfType raw) = true)) ∧
    (∀ raw, val.toRaw = Except.ok raw → validateRaw val.tfType raw = Except.ok () →
      ValueToTerraform val = Except.ok (newValue val.tfType raw)) := by
  constructor
  · cases h : val.toRaw with
    | error e =>
        simp [ValueToTerraform, h, exceptIsError]
    | ok raw =>
        cases h2 : validateRaw val.tfType raw with
        | error e =>
            simp [ValueToTerraform, h, h2, exceptIsError]
        | ok u =>
            simp [ValueToTerraform, h, h2, exceptIsError]
  · intro raw h1 h2
    simp [ValueToTerraform, h1, h2]

/-- Witness for C8 at a concrete Value whose payload round-trips. -/
theorem valueToTerraform_revalidates_witness :
    ValueToTerraform ⟨GoType.attrT "types.String", TFType.string, Except.ok (Raw.strV "a")⟩ =
      Except.ok (TFValue.str "a") :=
  (valueToTerraform_revalidates
    ⟨GoType.attrT "types.String", TFType.string, Except.ok (Raw.strV "a")⟩).2
    (Raw.strV "a") rfl rfl

/-- C10: `FromAttributeValue` is the identity on the value in every case,
and diagnostics are added only when the type implements the validate hook
and either the value's to-raw conversion fails or the hook reports
diagnostics. -/
theorem fromAttributeValue_identity (typ : AttrType) (val : AttrValue) (path : AttrPath) :
    (FromAttributeValue typ val path).1 = val ∧
    ((FromAttributeValue typ val path).2 ≠ [] →
      ∃ f, typ.validate = some f ∧
        (exceptIsError val.toRaw = true ∨
          ∃ raw, val.toRaw = Except.ok raw ∧
            f (newValue typ.terraformType raw) path ≠ [])) := by
  cases hv : typ.validate with
  | none =>
      refine ⟨by simp [FromAttributeValue, hv], ?_⟩
      intro h
      simp [FromAttributeValue, hv] at h
  | some f =>
      cases ht : val.toRaw with
      | error e =>
          refine ⟨by simp [FromAttributeValue, hv, ht], ?_⟩
          intro _
          exact ⟨f, rfl, Or.inl (by simp [ht, exceptIsError])⟩
      | ok raw =>
          constructor
          · simp only [FromAttributeValue, hv, ht]
            split <;> rfl
          · intro h
            refine ⟨f, rfl, Or.inr ⟨raw, rfl, ?_⟩⟩
            simp only [FromAttributeValue, hv, ht] at h
            intro hnil
            rw [hnil] at h
            simp at h

/-- Witness for C10 at a concrete type with a validate hook that reports
a diagnostic. -/
theorem fromAttributeValue_identity_witness :
    (FromAttributeValue
      (AttrType.mk "t" TFType.string (fun _ => Except.error "unused")
        (some (fun _ p => [Diagnostic.attrError p "Invalid" "rejected"])) none)
      ⟨GoType.attrT "v", TFType.string, Except.ok (Raw.strV "x")⟩ AttrPath.empty).1 =
      ⟨GoType.attrT "v", TFType.string, Except.ok (Raw.strV "x")⟩ ∧
    ∃ f, (AttrType.mk "t" TFType.string (fun _ => Except.error "unused")
        (some (fun _ p => [Diagnostic.attrError p "Invalid" "rejected"])) none).validate = some f ∧
      (exceptIsError (Except.ok (Raw.strV "x") : Except String Raw) = true ∨
        ∃ raw, (Except.ok (Raw.strV "x") : Except String Raw) = Except.ok raw ∧
          f (newValue TFType.string raw) AttrPath.empty ≠ []) := by
  have h : (FromAttributeValue
      (AttrType.mk "t" TFType.string (fun _ => Except.error "unused")
        (some (fun _ p => [Diagnostic.attrError p "Invalid" "rejected"])) none)
      ⟨GoType.attrT "v", TFType.string, Except.ok (Raw.strV "x")⟩ AttrPath.empty).2 =
      [Diagnostic.attrError AttrPath.empty "Invalid" "rejected"] := rfl
  exact ⟨(fromAttributeValue_identity _ _ _).1,
    (fromAttributeValue_identity _ _ _).2 (by rw [h]; exact List.cons_ne_nil _ _)⟩

/-- C4: when the Value produced by a Type's `ValueFromTerraform` has a
different concrete type than the target declares, `NewAttributeValue`
emits `DiagNewAttributeValueIntoWrongType` (carrying the path) and returns
the original target unchanged; the produced Value is never silently
coerced into the target. -/
theorem newAttributeValue_wrongType (typ : AttrType) (val : TFValue) (target : GoValue)
    (path : AttrPath) (res : AttrValue) :
    hasError (validateDiags typ val path) = false →
    typ.valueFromTerraform val = Except.ok res →
    res.goType ≠ target.type →
    NewAttributeValue typ val target path =
      (target, validateDiags typ val path ++
        [Diagnostic.newAttributeValueIntoWrongType res.goType target.type typ.name path]) := by
  intro h1 h2 h3
  simp [NewAttributeValue, h1, h2, h3]

/-- Witness for C4: a string-typed Value produced into an int target. -/
theorem newAttributeValue_wrongType_witness :
    NewAttributeValue strType (TFValue.str "x") (GoValue.intV 0) AttrPath.empty =
      (GoValue.intV 0, validateDiags strType (TFValue.str "x") AttrPath.empty ++
        [Diagnostic.newAttributeValueIntoWrongType (GoType.attrT "types.String")
          GoType.intT strType.name AttrPath.empty]) :=
  newAttributeValue_wrongType strType (TFValue.str "x") (GoValue.intV 0) AttrPath.empty
    ⟨GoType.attrT "types.String", TFType.string, Except.ok (Raw.strV "x")⟩
    rfl rfl (by decide)

/-- C3: the capability-hook converters never conflate null and unknown:
on a successful hook call `NewUnknownable` sets the zero receiver's
unknown flag to true iff the raw value is not known (touching neither the
null flag nor the stored payload), `NewNullable` sets the null flag to
true iff the raw value is null (touching neither the unknown flag nor
the stored payload), and `FromUnknownable` on a source whose unknown flag
is set produces its result without consulting the value accessor (two
sources with the flag set and different stored values give identical
results), producing the unknown Value when the type has no validate hook
and its `ValueFromTerraform` succeeds. -/
theorem hooks_null_unknown_distinct (typ : AttrType) (val : TFValue) (target : HookValue)
    (path : AttrPath) (u1 u2 : UnknownableVal) (res : AttrValue) :
    (target.methods.hasSetUnknown = true →
      target.methods.setUnknownErr (!val.isKnown) = none →
      (((NewUnknownable typ val target path).1.state.unknown = true ↔ val.isKnown = false) ∧
       (NewUnknownable typ val target path).1.state.null = false ∧
       (NewUnknownable typ val target path).1.state.value = HookState.zero.value ∧
       (NewUnknownable typ val target path).2 = [])) ∧
    (target.methods.hasSetNull = true →
      target.methods.setNullErr val.isNull = none →
      (((NewNullable typ val target path).1.state.null = true ↔ val.isNull = true) ∧
       (NewNullable typ val target path).1.state.unknown = false ∧
       (NewNullable typ val target path).1.state.value = HookState.zero.value ∧
       (NewNullable typ val target path).2 = [])) ∧
    (u1.unknown = true → u2.unknown = true →
      FromUnknownable typ u1 path = FromUnknownable typ u2 path) ∧
    (u1.unknown = true → typ.validate = none →
      typ.valueFromTerraform (newValue typ.terraformType Raw.unknown) = Except.ok res →
      FromUnknownable typ u1 path = (some res, [])) := by
  refine ⟨?_, ?_, ?_, ?_⟩
  · intro h1 h2
    simp [NewUnknownable, pointerSafeZeroValue, h1, h2, HookState.zero, Bool.not_eq_true']
  · intro h1 h2
    simp [NewNullable, pointerSafeZeroValue, h1, h2, HookState.zero]
  · intro h1 h2
    simp [FromUnknownable, h1, h2]
  · intro h1 h2 h3
    simp [FromUnknownable, h1, validateDiags, h2, h3, hasError]

/-- Witness for C3: a both-hooks target with junk pre-existing state, an
unknown raw value, and two unknown sources with different stored values. -/
theorem hooks_null_unknown_distinct_witness :
    (((NewUnknownable strType (TFValue.unknown TFType.string)
        ⟨⟨true, true, false, fun _ => none, fun _ => none, fun _ => Except.error "n"⟩,
         ⟨false, true, Raw.strV "junk"⟩⟩ AttrPath.empty).1.state.unknown = true ↔
        (TFValue.unknown TFType.string).isKnown = false) ∧
      (NewUnknownable strType (TFValue.unknown TFType.string)
        ⟨⟨true, true, false, fun _ => none, fun _ => none, fun _ => Except.error "n"⟩,
         ⟨false, true, Raw.strV "junk"⟩⟩ AttrPath.empty).1.state.null = false ∧
      (NewUnknownable strType (TFValue.unknown TFType.string)
        ⟨⟨true, true, false, fun _ => none, fun _ => none, fun _ => Except.error "n"⟩,
         ⟨false, true, Raw.strV "junk"⟩⟩ AttrPath.empty).1.state.value = HookState.zero.value ∧
      (NewUnknownable strType (TFValue.unknown TFType.string)
        ⟨⟨true, true, false, fun _ => none, fun _ => none, fun _ => Except.error "n"⟩,
         ⟨false, true, Raw.strV "junk"⟩⟩ AttrPath.empty).2 = []) ∧
    (((NewNullable strType (TFValue.null TFType.string)
        ⟨⟨true, true, false, fun _ => none, fun _ => none, fun _ => Except.error "n"⟩,
         ⟨false, true, Raw.strV "junk"⟩⟩ AttrPath.empty).1.state.null = true ↔
        (TFValue.null TFType.string).isNull = true) ∧
      (NewNullable strType (TFValue.null TFType.string)
        ⟨⟨true, true, false, fun _ => none, fun _ => none, fun _ => Except.error "n"⟩,
         ⟨false, true, Raw.strV "junk"⟩⟩ AttrPath.empty).1.state.unknown = false ∧
      (NewNullable strType (TFValue.null TFType.string)
        ⟨⟨true, true, false, fun _ => none, fun _ => none, fun _ => Except.error "n"⟩,
         ⟨false, true, Raw.strV "junk"⟩⟩ AttrPath.empty).1.state.value = HookState.zero.value ∧
      (NewNullable strType (TFValue.null TFType.string)
        ⟨⟨true, true, false, fun _ => none, fun _ => none, fun _ => Except.error "n"⟩,
         ⟨false, true, Raw.strV "junk"⟩⟩ AttrPath.empty).2 = []) ∧
    FromUnknownable strType ⟨true, Raw.strV "a"⟩ AttrPath.empty =
      FromUnknownable strType ⟨true, Raw.strV "b"⟩ AttrPath.empty ∧
    FromUnknownable strType ⟨true, Raw.strV "a"⟩ AttrPath.empty =
      (some ⟨GoType.attrT "types.String", TFType.string, Except.ok Raw.unknown⟩, []) := by
  have h := hooks_null_unknown_distinct strType (TFValue.unknown TFType.string)
    ⟨⟨true, true, false, fun _ => none, fun _ => none, fun _ => Except.error "n"⟩,
     ⟨false, true, Raw.strV "junk"⟩⟩ AttrPath.empty
    ⟨true, Raw.strV "a"⟩ ⟨true, Raw.strV "b"⟩
    ⟨GoType.attrT "types.String", TFType.string, Except.ok Raw.unknown⟩
  have h2 := hooks_null_unknown_distinct strType (TFValue.null TFType.string)
    ⟨⟨true, true, false, fun _ => none, fun _ => none, fun _ => Except.error "n"⟩,
     ⟨false, true, Raw.strV "junk"⟩⟩ AttrPath.empty
    ⟨true, Raw.strV "a"⟩ ⟨true, Raw.strV "b"⟩
    ⟨GoType.attrT "types.String", TFType.string, Except.ok Raw.unknown⟩
  exact ⟨h.1 rfl rfl, h2.2.1 rfl rfl, h.2.2.1 rfl rfl, h.2.2.2 rfl rfl rfl⟩

/-- C6: a failing validate hook short-circuits materialization before
`ValueFromTerraform` is consulted: when the hook's diagnostics for the raw
value contain an error, `NewAttributeValue` returns the unchanged target
with exactly those diagnostics, and `FromMap` (both for a nil native map
and at the whole-map stage of a non-nil map) returns a nil Value with
exactly those diagnostics — in each case the result is fully determined
by the hook output, independent of `ValueFromTerraform`. -/
theorem validate_short_circuits
    (fv : AttrType → GoValue → AttrPath → AttrValue × List Diagnostic)
    (typ : AttrType) (f : TFValue → AttrPath → List Diagnostic)
    (val : TFValue) (target : GoValue) (nmv : NativeMapVal) (t : TFType) (path : AttrPath) :
    typ.validate = some f →
    ((hasError (f val path) = true →
        NewAttributeValue typ val target path = (target, f val path)) ∧
     (nmv.isNil = true →
        hasError (f (TFValue.null typ.terraformType) path) = true →
        FromMap fv typ nmv path = (none, f (TFValue.null typ.terraformType) path)) ∧
     (nmv.isNil = false → nmv.entries = [] →
        typ.terraformType = TFType.map t →
        hasError (f (TFValue.mapV t []) path) = true →
        FromMap fv typ nmv path = (none, f (TFValue.mapV t []) path))) := by
  intro hv
  refine ⟨?_, ?_, ?_⟩
  · intro h
    simp [NewAttributeValue, validateDiags, hv, h]
  · intro hnil h
    simp [FromMap, hnil, validateDiags, hv, newValue, h]
  · intro hnil hent hty h
    simp [FromMap, hnil, hent, fromMapLoop, hty, validateRaw, newValue, validateDiags, hv, h]

/-- Witness for C6: an always-rejecting validate hook on a map type, run
against a leaf target, a nil native map, and an empty non-nil native map. -/
theorem validate_short_circuits_witness :
    (NewAttributeValue
        (AttrType.mk "types.MapType" (TFType.map TFType.string)
          (fun _ => Except.error "unused")
          (some (fun _ p => [Diagnostic.attrError p "Invalid" "rejected"]))
          (some strType))
        (TFValue.null (TFType.map TFType.string)) (GoValue.intV 0) AttrPath.empty =
      (GoValue.intV 0, [Diagnostic.attrError AttrPath.empty "Invalid" "rejected"])) ∧
    (FromMap fromStrOnly
        (AttrType.mk "types.MapType" (TFType.map TFType.string)
          (fun _ => Except.error "unused")
          (some (fun _ p => [Diagnostic.attrError p "Invalid" "rejected"]))
          (some strType))
        ⟨GoType.stringT, true, []⟩ AttrPath.empty =
      (none, [Diagnostic.attrError AttrPath.empty "Invalid" "rejected"])) ∧
    (FromMap fromStrOnly
        (AttrType.mk "types.MapType" (TFType.map TFType.string)
          (fun _ => Except.error "unused")
          (some (fun _ p => [Diagnostic.attrError p "Invalid" "rejected"]))
          (some strType))
        ⟨GoType.stringT, false, []⟩ AttrPath.empty =
      (none, [Diagnostic.attrError AttrPath.empty "Invalid" "rejected"])) := by
  have h := validate_short_circuits fromStrOnly
    (AttrType.mk "types.MapType" (TFType.map TFType.string)
      (fun _ => Except.error "unused")
      (some (fun _ p => [Diagnostic.attrError p "Invalid" "rejected"]))
      (some strType))
    (fun _ p => [Diagnostic.attrError p "Invalid" "rejected"])
    (TFValue.null (TFType.map TFType.string)) (GoValue.intV 0)
    ⟨GoType.stringT, true, []⟩ TFType.string AttrPath.empty rfl
  have h2 := validate_short_circuits fromStrOnly
    (AttrType.mk "types.MapType" (TFType.map TFType.string)
      (fun _ => Except.error "unused")
      (some (fun _ p => [Diagnostic.attrError p "Invalid" "rejected"]))
      (some strType))
    (fun _ p => [Diagnostic.attrError p "Invalid" "rejected"])
    (TFValue.null (TFType.map TFType.string)) (GoValue.intV 0)
    ⟨GoType.stringT, false, []⟩ TFType.string AttrPath.empty rfl
  exact ⟨h.1 rfl, h.2.1 rfl rfl, h2.2.2 rfl rfl rfl rfl⟩


/-- If the element loop of `Map` ends with error-severity diagnostics, it
returned the caller's original target. -/
theorem mapLoop_error_returns_target
    (bv : AttrType → TFValue → GoValue → AttrPath → GoValue × List Diagnostic)
    (eA : AttrType) (eT : GoType) (target : GoValue) (path : AttrPath) :
    ∀ (entries : List (String × TFValue)) (diags : List Diagnostic)
      (m : List (String × GoValue)),
      hasError diags = false →
      hasError (mapLoop bv eA eT target path entries diags m).2 = true →
      (mapLoop bv eA eT target path entries diags m).1 = target := by
  intro entries
  induction entries with
  | nil =>
      intro diags m h1 h2
      simp [mapLoop] at h2
      rw [h2] at h1
      cases h1
  | cons kv rest ih =>
      intro diags m h1 h2
      obtain ⟨key, value⟩ := kv
      by_cases hc : hasError (diags ++ (bv eA value (GoValue.zero eT)
        (path.withElementKeyString key)).2) = true
      · simp [mapLoop, hc]
      · have hc2 : hasError (diags ++ (bv eA value (GoValue.zero eT)
          (path.withElementKeyString key)).2) = false := by
          simpa using hc
        simp only [mapLoop, hc2, Bool.false_eq_true, if_false] at h2 ⊢
        exact ih _ _ hc2 h2

/-- C9: on every error branch the into-native converters return the
caller's original target value unchanged: whenever `Map`,
`NewAttributeValue`, `NewUnknownable`, `NewNullable`, or
`NewValueConverter` returns diagnostics containing an error, the returned
value is exactly the target it was given. -/
theorem error_branches_return_target :
    (∀ (bv : AttrType → TFValue → GoValue → AttrPath → GoValue × List Diagnostic)
       (typ : AttrType) (val : TFValue) (target : GoValue) (path : AttrPath),
       hasError (Map bv typ val target path).2 = true →
       (Map bv typ val target path).1 = target) ∧
    (∀ (typ : AttrType) (val : TFValue) (target : GoValue) (path : AttrPath),
       hasError (NewAttributeValue typ val target path).2 = true →
       (NewAttributeValue typ val target path).1 = target) ∧
    (∀ (typ : AttrType) (val : TFValue) (target : HookValue) (path : AttrPath),
       hasError (NewUnknownable typ val target path).2 = true →
       (NewUnknownable typ val target path).1 = target) ∧
    (∀ (typ : AttrType) (val : TFValue) (target : HookValue) (path : AttrPath),
       hasError (NewNullable typ val target path).2 = true →
       (NewNullable typ val target path).1 = target) ∧
    (∀ (typ : AttrType) (val : TFValue) (target : HookValue) (path : AttrPath),
       hasError (NewValueConverter typ val target path).2 = true →
       (NewValueConverter typ val target path).1 = target) := by
  refine ⟨?_, ?_, ?_, ?_, ?_⟩
  · intro bv typ val target path h
    rcases hE : Map bv typ val target path with ⟨r, ds⟩
    rw [hE] at h
    simp only [Map] at hE
    split at hE
    · injection hE with hA hB
      exact hA.symm
    · split at hE
      · injection hE with hA hB
        exact hA.symm
      · split at hE
        · injection hE with hA hB
          exact hA.symm
        · split at hE
          · injection hE with hA hB
            exact hA.symm
          · rename_i scr1 elemT hsome scr2 values hok
            have hres := mapLoop_error_returns_target bv elemT
              ((trueReflectValue target).type.elem) target path values [] [] rfl
            rw [hE] at hres
            exact hres h
  · intro typ val target path h
    rcases hE : NewAttributeValue typ val target path with ⟨r, ds⟩
    rw [hE] at h
    simp only [NewAttributeValue] at hE
    split at hE
    · injection hE with hA hB
      exact hA.symm
    · split at hE
      · injection hE with hA hB
        exact hA.symm
      · split at hE
        · injection hE with hA hB
          exact hA.symm
        · rename_i hvd scr res heq hneq
          injection hE with hA hB
          have h2 : hasError ds = true := h
          rw [← hB] at h2
          exact absurd h2 hvd
  · intro typ val target path h
    rcases hE : NewUnknownable typ val target path with ⟨r, ds⟩
    rw [hE] at h
    simp only [NewUnknownable] at hE
    split at hE
    · injection hE with hA hB
      exact hA.symm
    · split at hE
      · injection hE with hA hB
        exact hA.symm
      · injection hE with hA hB
        have h2 : hasError ds = true := h
        rw [← hB] at h2
        simp [hasError] at h2
  · intro typ val target path h
    rcases hE : NewNullable typ val target path with ⟨r, ds⟩
    rw [hE] at h
    simp only [NewNullable] at hE
    split at hE
    · injection hE with hA hB
      exact hA.symm
    · split at hE
      · injection hE with hA hB
        exact hA.symm
      · injection hE with hA hB
        have h2 : hasError ds = true := h
        rw [← hB] at h2
        simp [hasError] at h2
  · intro typ val target path h
    rcases hE : NewValueConverter typ val target path with ⟨r, ds⟩
    rw [hE] at h
    simp only [NewValueConverter] at hE
    split at hE
    · injection hE with hA hB
      exact hA.symm
    · split at hE
      · injection hE with hA hB
        exact hA.symm
      · injection hE with hA hB
        have h2 : hasError ds = true := h
        rw [← hB] at h2
        simp [hasError] at h2

/-- A hook target implementing none of the capability methods, for
witnesses of missing-method error branches. -/
def hooklessTarget : HookValue :=
  ⟨⟨false, false, false, fun _ => none, fun _ => none, fun _ => Except.error "n"⟩,
   ⟨false, false, Raw.null⟩⟩

/-- Witness for C9: each converter applied at a concrete erroring input
returns its original target. -/
theorem error_branches_return_target_witness :
    (Map buildStrOnly mapStrType (TFValue.str "x") (GoValue.str "t") AttrPath.empty).1 =
      GoValue.str "t" ∧
    (NewAttributeValue strType (TFValue.num 3) (GoValue.intV 0) AttrPath.empty).1 =
      GoValue.intV 0 ∧
    (NewUnknownable strType (TFValue.str "x") hooklessTarget AttrPath.empty).1 =
      hooklessTarget ∧
    (NewNullable strType (TFValue.str "x") hooklessTarget AttrPath.empty).1 =
      hooklessTarget ∧
    (NewValueConverter strType (TFValue.str "x") hooklessTarget AttrPath.empty).1 =
      hooklessTarget :=
  ⟨error_branches_return_target.1 buildStrOnly mapStrType (TFValue.str "x")
      (GoValue.str "t") AttrPath.empty rfl,
   error_branches_return_target.2.1 strType (TFValue.num 3) (GoValue.intV 0)
      AttrPath.empty rfl,
   error_branches_return_target.2.2.1 strType (TFValue.str "x") hooklessTarget
      AttrPath.empty rfl,
   error_branches_return_target.2.2.2.1 strType (TFValue.str "x") hooklessTarget
      AttrPath.empty rfl,
   error_branches_return_target.2.2.2.2 strType (TFValue.str "x") hooklessTarget
      AttrPath.empty rfl⟩

/-- Counterexample to C1 at a concrete input: converting a map with one
valid element `"a"` and one invalid element `"b"` yields one error
diagnostic at the invalid element's path, but the returned value is the
caller's untouched zero target — not a map containing the successfully
converted sibling `("a", "x")` — so the valid sibling element is not
converted into the result. -/
theorem map_sibling_discarded_cex :
    Map buildStrOnly mapStrType
      (TFValue.mapV TFType.string [("a", TFValue.str "x"), ("b", TFValue.boolV true)])
      (GoValue.zero (GoType.mapT GoType.stringT)) AttrPath.empty =
      (GoValue.zero (GoType.mapT GoType.stringT),
       [Diagnostic.attrError (AttrPath.empty.withElementKeyString "b")
          "Value Conversion Error" "bad element"]) ∧
    GoValue.zero (GoType.mapT GoType.stringT) ≠
      GoValue.mapV GoType.stringT [("a", GoValue.str "x")] := by
  constructor
  · rfl
  · intro h
    exact GoValue.noConfusion h

/-- C1 (amended): an error diagnostic produced while converting one map
element aborts the conversion of the enclosing map: for a two-element map
whose first element converts cleanly and whose second element produces a
single error diagnostic, `Map` returns exactly that one diagnostic
(scoped to the invalid element's path) together with the caller's
original target — the successfully converted sibling is discarded rather
than included in the result. -/
theorem map_element_error_aborts
    (bv : AttrType → TFValue → GoValue → AttrPath → GoValue × List Diagnostic)
    (typ elemT : AttrType) (tfe : TFType) (egT : GoType) (k1 k2 : String)
    (v1 v2 : TFValue) (path : AttrPath) (r1 r2 : GoValue) (d : Diagnostic) :
    typ.elementType = some elemT →
    bv elemT v1 (GoValue.zero egT) (path.withElementKeyString k1) = (r1, []) →
    bv elemT v2 (GoValue.zero egT) (path.withElementKeyString k2) = (r2, [d]) →
    d.isErrorSeverity = true →
    Map bv typ (TFValue.mapV tfe [(k1, v1), (k2, v2)])
      (GoValue.zero (GoType.mapT egT)) path =
      (GoValue.zero (GoType.mapT egT), [d]) := by
  intro hElem hb1 hb2 hd
  simp [Map, trueReflectValue, GoValue.kind, GoValue.type, GoType.kind,
    TFValue.type, TFType.isMap, hElem, TFValue.asMap, GoType.elem, mapLoop,
    hb1, hb2, hasError, hd]

/-- Witness for the amended C1 at the concrete two-element map. -/
theorem map_element_error_aborts_witness :
    Map buildStrOnly mapStrType
      (TFValue.mapV TFType.string [("a", TFValue.str "x"), ("b", TFValue.boolV true)])
      (GoValue.zero (GoType.mapT GoType.stringT)) (AttrPath.mk [PathStep.attributeName "m"]) =
      (GoValue.zero (GoType.mapT GoType.stringT),
       [Diagnostic.attrError ((AttrPath.mk [PathStep.attributeName "m"]).withElementKeyString "b")
          "Value Conversion Error" "bad element"]) :=
  map_element_error_aborts buildStrOnly mapStrType strType TFType.string GoType.stringT
    "a" "b" (TFValue.str "x") (TFValue.boolV true) (AttrPath.mk [PathStep.attributeName "m"])
    (GoValue.str "x") (GoValue.zero GoType.stringT)
    (Diagnostic.attrError ((AttrPath.mk [PathStep.attributeName "m"]).withElementKeyString "b")
      "Value Conversion Error" "bad element")
    rfl rfl rfl rfl

/-- If some entry of a native map fails its per-element pipeline, the
element loop of `FromMap` returns an error-severity diagnostic collection
(aborting the enclosing map). -/
theorem fromMapLoop_bad_elem
    (fv : AttrType → GoValue → AttrPath → AttrValue × List Diagnostic)
    (typ eT : AttrType) (path : AttrPath) :
    ∀ (entries : List (GoValue × GoValue)) (diags : List Diagnostic)
      (acc : List (String × TFValue)),
      hasError diags = false →
      (∃ e ∈ entries, elemOk fv typ eT path e.1 e.2 = false) →
      ∃ d, fromMapLoop fv typ eT path entries diags acc = .error d ∧
        hasError d = true := by
  intro entries
  induction entries with
  | nil =>
      intro diags acc h1 h2
      simp at h2
  | cons kg rest ih =>
      intro diags acc h1 h2
      obtain ⟨k, gv⟩ := kg
      by_cases hk : k.kind = GoKind.string
      · simp only [fromMapLoop, if_neg (not_not_intro hk)]
        by_cases hconv : hasError (diags ++
            (fv eT gv (path.withElementKeyString k.stringVal)).2) = true
        · rw [if_pos hconv]
          exact ⟨_, rfl, hconv⟩
        · rw [if_neg hconv]
          have hconv2 : hasError (fv eT gv (path.withElementKeyString k.stringVal)).2 = false := by
            have := hconv
            rw [Bool.not_eq_true, hasError_append, h1, Bool.false_or] at this
            exact this
          rcases hraw : (fv eT gv (path.withElementKeyString k.stringVal)).1.toRaw with e | raw
          · simp only [hraw]
            refine ⟨_, rfl, ?_⟩
            rw [hasError_append]
            simp [hasError, Diagnostic.isErrorSeverity, Diagnostic.severity,
              toTerraformValueErrorDiag]
          · simp only [hraw]
            rcases hvr : validateRaw eT.terraformType raw with e2 | u
            · simp only [hvr]
              refine ⟨_, rfl, ?_⟩
              rw [hasError_append]
              simp [hasError, Diagnostic.isErrorSeverity, Diagnostic.severity,
                validateValueErrorDiag]
            · simp only [hvr]
              by_cases hvd : hasError ((diags ++
                  (fv eT gv (path.withElementKeyString k.stringVal)).2) ++
                  validateDiags typ (newValue eT.terraformType raw)
                    (path.withElementKeyString k.stringVal)) = true
              · rw [if_pos hvd]
                exact ⟨_, rfl, hvd⟩
              · rw [if_neg hvd]
                have hvd2 : hasError (validateDiags typ (newValue eT.terraformType raw)
                    (path.withElementKeyString k.stringVal)) = false := by
                  have := hvd
                  rw [Bool.not_eq_true, hasError_append, hasError_append, h1,
                    hconv2, Bool.false_or, Bool.false_or] at this
                  exact this
                have hok : elemOk fv typ eT path k gv = true := by
                  simp [elemOk, hk, hconv2, hraw, hvr, hvd2]
                obtain ⟨e, he, hbad⟩ := h2
                rcases List.mem_cons.mp he with he' | he'
                · rw [he'] at hbad
                  rw [hok] at hbad
                  cases hbad
                · exact ih _ _ (by rw [Bool.not_eq_true] at hvd; exact hvd)
                    ⟨e, he', hbad⟩
      · simp only [fromMapLoop, if_pos hk]
        refine ⟨_, rfl, ?_⟩
        rw [hasError_append]
        simp [hasError, Diagnostic.isErrorSeverity, Diagnostic.severity]

/-- C5: in `FromMap`, a map key whose kind is not string fails the whole
map: the result is a nil Value with error-severity diagnostics, and when
the offending key is the first entry encountered the diagnostics are
exactly one error carrying the enclosing map's path (not an element
path), with no entries of the map materialized. -/
theorem fromMap_nonstring_key_fails
    (fv : AttrType → GoValue → AttrPath → AttrValue × List Diagnostic)
    (typ : AttrType) (val : NativeMapVal) (path : AttrPath) :
    val.isNil = false →
    ((∃ e ∈ val.entries, e.1.kind ≠ GoKind.string) →
      (FromMap fv typ val path).1 = none ∧
      hasError (FromMap fv typ val path).2 = true) ∧
    (∀ (k gv : GoValue) (rest : List (GoValue × GoValue)),
      val.entries = (k, gv) :: rest → k.kind ≠ GoKind.string →
      FromMap fv typ val path =
        (none, [Diagnostic.attrError path "Value Conversion Error"
          ("An unexpected error was encountered trying to convert into a Terraform value. This is always an error in the provider. Please report the following to the provider developer:\n\n" ++
           "map keys must be strings, got " ++ k.type.render)])) := by
  intro hnil
  constructor
  · intro hbad
    obtain ⟨e, he, hk⟩ := hbad
    have hko : elemOk fv typ typ.elementTypeD path e.1 e.2 = false := by
      simp [elemOk, hk]
    obtain ⟨d, hl, hd⟩ := fromMapLoop_bad_elem fv typ typ.elementTypeD path
      val.entries [] [] rfl ⟨e, he, hko⟩
    constructor
    · simp [FromMap, hnil, hl]
    · simp [FromMap, hnil, hl, hd]
  · intro k gv rest hent hk
    simp [FromMap, hnil, hent, fromMapLoop, hk]

/-- Witness for C5: a native map whose first key is an int. -/
theorem fromMap_nonstring_key_fails_witness :
    FromMap fromStrOnly mapStrType
      ⟨GoType.stringT, false, [(GoValue.intV 1, GoValue.str "v")]⟩ AttrPath.empty =
      (none, [Diagnostic.attrError AttrPath.empty "Value Conversion Error"
        ("An unexpected error was encountered trying to convert into a Terraform value. This is always an error in the provider. Please report the following to the provider developer:\n\n" ++
         "map keys must be strings, got " ++ GoType.intT.render)]) :=
  (fromMap_nonstring_key_fails fromStrOnly mapStrType
    ⟨GoType.stringT, false, [(GoValue.intV 1, GoValue.str "v")]⟩ AttrPath.empty rfl).2
    (GoValue.intV 1) (GoValue.str "v") [] rfl (by decide)

/-- C7: any error arising while converting or validating a single element
of a native map aborts materialization of the enclosing map: `FromMap`
returns a nil Value with error-severity diagnostics whenever some entry
fails its per-element pipeline, so a non-nil result is produced only if
every element succeeded. -/
theorem fromMap_element_error_aborts
    (fv : AttrType → GoValue → AttrPath → AttrValue × List Diagnostic)
    (typ : AttrType) (val : NativeMapVal) (path : AttrPath) :
    val.isNil = false →
    ((∃ e ∈ val.entries, elemOk fv typ typ.elementTypeD path e.1 e.2 = false) →
      (FromMap fv typ val path).1 = none ∧
      hasError (FromMap fv typ val path).2 = true) ∧
    (∀ v, (FromMap fv typ val path).1 = some v →
      ∀ e ∈ val.entries, elemOk fv typ typ.elementTypeD path e.1 e.2 = true) := by
  intro hnil
  have habort : (∃ e ∈ val.entries, elemOk fv typ typ.elementTypeD path e.1 e.2 = false) →
      (FromMap fv typ val path).1 = none ∧
      hasError (FromMap fv typ val path).2 = true := by
    intro hbad
    obtain ⟨d, hl, hd⟩ := fromMapLoop_bad_elem fv typ typ.elementTypeD path
      val.entries [] [] rfl hbad
    constructor
    · simp [FromMap, hnil, hl]
    · simp [FromMap, hnil, hl, hd]
  refine ⟨habort, ?_⟩
  intro v hv e he
  by_contra hne
  rw [Bool.not_eq_true] at hne
  have := (habort ⟨e, he, hne⟩).1
  rw [hv] at this
  cases this

/-- A recursive converter that fails on every element, for the C7
witness. -/
def fromAlwaysFailing : AttrType → GoValue → AttrPath → AttrValue × List Diagnostic :=
  fun _ _ p =>
    (⟨GoType.attrT "types.String", TFType.string, Except.ok Raw.null⟩,
     [Diagnostic.attrError p "Value Conversion Error" "element conversion failed"])

/-- Witness for C7: a one-entry native map whose element conversion
fails. -/
theorem fromMap_element_error_aborts_witness :
    (FromMap fromAlwaysFailing mapStrType
      ⟨GoType.stringT, false, [(GoValue.str "a", GoValue.str "v")]⟩ AttrPath.empty).1 = none ∧
    hasError (FromMap fromAlwaysFailing mapStrType
      ⟨GoType.stringT, false, [(GoValue.str "a", GoValue.str "v")]⟩ AttrPath.empty).2 = true :=
  (fromMap_element_error_aborts fromAlwaysFailing mapStrType
    ⟨GoType.stringT, false, [(GoValue.str "a", GoValue.str "v")]⟩ AttrPath.empty rfl).1
    ⟨(GoValue.str "a", GoValue.str "v"), List.mem_singleton.mpr rfl, rfl⟩

/-- A tag lookup returning `none` means no accumulated pair has that tag
as key. -/
theorem lookupTag_none_not_mem (acc : List (String × Nat)) (t : String) :
    lookupTag acc t = none → t ∉ acc.map Prod.fst := by
  intro h hm
  obtain ⟨p, hp, hpt⟩ := List.mem_map.mp hm
  unfold lookupTag at h
  rw [Option.map_eq_none'] at h
  have := List.find?_eq_none.mp h p hp
  simp [hpt] at this

/-- Pairs accumulated before the `getStructTags` loop runs survive into a
successful result. -/
theorem getStructTagsLoop_sub (path : AttrPath) (all : List StructField) :
    ∀ (rest : List StructField) (i : Nat) (acc m : List (String × Nat)),
      getStructTagsLoop path all rest i acc = .ok m → ∀ p ∈ acc, p ∈ m := by
  intro rest
  induction rest with
  | nil =>
      intro i acc m hok p hp
      simp only [getStructTagsLoop] at hok
      injection hok with h
      rw [← h]
      exact hp
  | cons g rest ih =>
      intro i acc m hok p hp
      simp only [getStructTagsLoop] at hok
      split at hok
      · exact ih _ _ _ hok p hp
      · split at hok
        · exact ih _ _ _ hok p hp
        · split at hok
          · cases hok
          · split at hok
            · cases hok
            · split at hok
              · cases hok
              · exact ih _ _ _ hok p (List.mem_append.mpr (Or.inl hp))

/-- On success every remaining exported, non-excluded field carries a
nonempty, valid tag. -/
theorem getStructTagsLoop_valid (path : AttrPath) (all : List StructField) :
    ∀ (rest : List StructField) (i : Nat) (acc m : List (String × Nat)),
      getStructTagsLoop path all rest i acc = .ok m →
      ∀ f ∈ rest, f.pkgPath = "" → f.tfsdkTag ≠ "-" →
        f.tfsdkTag ≠ "" ∧ isValidFieldName f.tfsdkTag = true := by
  intro rest
  induction rest with
  | nil =>
      intro i acc m hok f hf
      simp at hf
  | cons g rest ih =>
      intro i acc m hok f hf hexp hdash
      simp only [getStructTagsLoop] at hok
      rcases List.mem_cons.mp hf with hfg | hfr
      · subst hfg
        split at hok
        · rename_i hne
          exact absurd hexp hne
        · split at hok
          · cases hok
          · split at hok
            · cases hok
            · split at hok
              · cases hok
              · rename_i hne2 hval hscr hlook
                exact ⟨hne2, not_not.mp (by simpa using hval)⟩
      · split at hok
        · exact ih _ _ _ hok f hfr hexp hdash
        · split at hok
          · exact ih _ _ _ hok f hfr hexp hdash
          · split at hok
            · cases hok
            · split at hok
              · cases hok
              · split at hok
                · cases hok
                · exact ih _ _ _ hok f hfr hexp hdash

/-- On success every remaining exported, non-excluded field is recorded
in the result under its tag, at its absolute field index. -/
theorem getStructTagsLoop_complete (path : AttrPath) (all : List StructField) :
    ∀ (rest : List StructField) (i : Nat) (acc m : List (String × Nat)),
      getStructTagsLoop path all rest i acc = .ok m →
      ∀ (k : Nat) (f : StructField), rest.get? k = some f →
        f.pkgPath = "" → f.tfsdkTag ≠ "-" → (f.tfsdkTag, i + k) ∈ m := by
  intro rest
  induction rest with
  | nil =>
      intro i acc m hok k f hget
      simp at hget
  | cons g rest ih =>
      intro i acc m hok k f hget hexp hdash
      simp only [getStructTagsLoop] at hok
      split at hok
      · rename_i hne
        cases k with
        | zero =>
            simp only [List.get?_cons_zero] at hget
            injection hget with hgf
            rw [← hgf] at hexp
            exact absurd hexp hne
        | succ k =>
            simp only [List.get?_cons_succ] at hget
            have := ih _ _ _ hok k f hget hexp hdash
            have he : i + (k + 1) = i + 1 + k := by omega
            rw [he]
            exact this
      · split at hok
        · rename_i hdd
          cases k with
          | zero =>
              simp only [List.get?_cons_zero] at hget
              injection hget with hgf
              rw [← hgf] at hdash
              exact absurd hdd hdash
          | succ k =>
              simp only [List.get?_cons_succ] at hget
              have := ih _ _ _ hok k f hget hexp hdash
              have he : i + (k + 1) = i + 1 + k := by omega
              rw [he]
              exact this
        · split at hok
          · cases hok
          · split at hok
            · cases hok
            · split at hok
              · cases hok
              · cases k with
                | zero =>
                    simp only [List.get?_cons_zero] at hget
                    injection hget with hgf
                    rw [hgf] at hok
                    have hmem : (f.tfsdkTag, i) ∈ acc ++ [(f.tfsdkTag, i)] :=
                      List.mem_append.mpr (Or.inr (List.mem_singleton.mpr rfl))
                    have hsub := getStructTagsLoop_sub path all rest (i + 1)
                      (acc ++ [(f.tfsdkTag, i)]) m hok (f.tfsdkTag, i) hmem
                    simpa using hsub
                | succ k =>
                    simp only [List.get?_cons_succ] at hget
                    have := ih _ _ _ hok k f hget hexp hdash
                    have he : i + (k + 1) = i + 1 + k := by omega
                    rw [he]
                    exact this

/-- Every pair of a successful `getStructTags` loop result either was
already accumulated or records an exported remaining field with a valid,
non-excluded tag at its absolute index. -/
theorem getStructTagsLoop_mem (path : AttrPath) (all : List StructField) :
    ∀ (rest : List StructField) (i : Nat) (acc m : List (String × Nat)),
      getStructTagsLoop path all rest i acc = .ok m →
      ∀ (t : String) (j : Nat), (t, j) ∈ m →
        (t, j) ∈ acc ∨
        ∃ k f, rest.get? k = some f ∧ f.pkgPath = "" ∧ f.tfsdkTag = t ∧
          t ≠ "-" ∧ t ≠ "" ∧ isValidFieldName t = true ∧ j = i + k := by
  intro rest
  induction rest with
  | nil =>
      intro i acc m hok t j hm
      simp only [getStructTagsLoop] at hok
      injection hok with h
      rw [h]
      exact Or.inl hm
  | cons g rest ih =>
      intro i acc m hok t j hm
      simp only [getStructTagsLoop] at hok
      split at hok
      · rcases ih _ _ _ hok t j hm with h | ⟨k, f, hget, hrest⟩
        · exact Or.inl h
        · refine Or.inr ⟨k + 1, f, by simpa using hget, hrest.1, hrest.2.1,
            hrest.2.2.1, hrest.2.2.2.1, hrest.2.2.2.2.1, by omega⟩
      · split at hok
        · rcases ih _ _ _ hok t j hm with h | ⟨k, f, hget, hrest⟩
          · exact Or.inl h
          · refine Or.inr ⟨k + 1, f, by simpa using hget, hrest.1, hrest.2.1,
              hrest.2.2.1, hrest.2.2.2.1, hrest.2.2.2.2.1, by omega⟩
        · split at hok
          · cases hok
          · split at hok
            · cases hok
            · split at hok
              · cases hok
              · rename_i hpkg hdd hne hval hscr hlook
                rcases ih _ _ _ hok t j hm with h | ⟨k, f, hget, hrest⟩
                · rcases List.mem_append.mp h with h2 | h2
                  · exact Or.inl h2
                  · have h3 := List.mem_singleton.mp h2
                    injection h3 with h4 h5
                    refine Or.inr ⟨0, g, by simp, not_not.mp hpkg, h4.symm, ?_, ?_, ?_, by omega⟩
                    · rw [h4]
                      exact hdd
                    · rw [h4]
                      exact hne
                    · rw [h4]
                      exact not_not.mp (by simpa using hval)
                · refine Or.inr ⟨k + 1, f, by simpa using hget, hrest.1, hrest.2.1,
                    hrest.2.2.1, hrest.2.2.2.1, hrest.2.2.2.2.1, by omega⟩

/-- A successful `getStructTags` loop keeps result keys free of
duplicates. -/
theorem getStructTagsLoop_nodup (path : AttrPath) (all : List StructField) :
    ∀ (rest : List StructField) (i : Nat) (acc m : List (String × Nat)),
      getStructTagsLoop path all rest i acc = .ok m →
      (acc.map Prod.fst).Nodup → (m.map Prod.fst).Nodup := by
  intro rest
  induction rest with
  | nil =>
      intro i acc m hok hnd
      simp only [getStructTagsLoop] at hok
      injection hok with h
      rw [← h]
      exact hnd
  | cons g rest ih =>
      intro i acc m hok hnd
      simp only [getStructTagsLoop] at hok
      split at hok
      · exact ih _ _ _ hok hnd
      · split at hok
        · exact ih _ _ _ hok hnd
        · split at hok
          · cases hok
          · split at hok
            · cases hok
            · split at hok
              · cases hok
              · rename_i hpkg hdd hne hval hscr hlook
                refine ih _ _ _ hok ?_
                rw [List.map_append]
                refine List.Nodup.append hnd (List.nodup_singleton _) ?_
                intro x hx hx2
                simp only [List.map_cons, List.map_nil] at hx2
                have hx3 : x = g.tfsdkTag := List.mem_singleton.mp hx2
                rw [hx3] at hx
                exact lookupTag_none_not_mem acc g.tfsdkTag hlook hx

/-- In a list with duplicate-free keys, membership is functional: equal
keys give equal values. -/
theorem nodup_keys_functional :
    ∀ (m : List (String × Nat)) (t : String) (j1 j2 : Nat),
      (m.map Prod.fst).Nodup → (t, j1) ∈ m → (t, j2) ∈ m → j1 = j2 := by
  intro m
  induction m with
  | nil =>
      intro t j1 j2 hnd h1
      simp at h1
  | cons p rest ih =>
      intro t j1 j2 hnd h1 h2
      simp only [List.map_cons, List.nodup_cons] at hnd
      obtain ⟨hni, hnd2⟩ := hnd
      rcases List.mem_cons.mp h1 with e1 | e1 <;> rcases List.mem_cons.mp h2 with e2 | e2
      · have h0 := e1.trans e2.symm
        have h3 : j1 = j2 := by simpa using h0
        exact h3
      · exfalso
        apply hni
        rw [← e1]
        exact List.mem_map.mpr ⟨(t, j2), e2, rfl⟩
      · exfalso
        apply hni
        rw [← e2]
        exact List.mem_map.mpr ⟨(t, j1), e1, rfl⟩
      · exact ih t j1 j2 hnd2 e1 e2

/-- C2: `getStructTags` on a struct rejects, before any value data is
processed, any `tfsdk` tag on an exported non-excluded field that fails
`isValidFieldName` (which covers tags with an uppercase letter, a leading
digit, or a missing tag, since the empty string is invalid) and any tag
declared by two distinct such fields; fields tagged `-` and unexported
fields are excluded; on success the returned mapping sends each tag to
the index of the exported field declaring it, and contains every
exported, non-excluded field under its tag. -/
theorem getStructTags_spec (fields : List StructField) (path : AttrPath) :
    ((∃ f ∈ fields, f.pkgPath = "" ∧ f.tfsdkTag ≠ "-" ∧
        (f.tfsdkTag = "" ∨ isValidFieldName f.tfsdkTag = false)) →
      exceptIsError (getStructTags (GoValue.zero (GoType.structT fields)) path) = true) ∧
    ((∃ k1 k2 f1 f2, k1 ≠ k2 ∧ fields.get? k1 = some f1 ∧ fields.get? k2 = some f2 ∧
        f1.pkgPath = "" ∧ f2.pkgPath = "" ∧ f1.tfsdkTag ≠ "-" ∧ f2.tfsdkTag ≠ "-" ∧
        f1.tfsdkTag = f2.tfsdkTag) →
      exceptIsError (getStructTags (GoValue.zero (GoType.structT fields)) path) = true) ∧
    (∀ m, getStructTags (GoValue.zero (GoType.structT fields)) path = .ok m →
      (∀ t j, (t, j) ∈ m →
        ∃ f, fields.get? j = some f ∧ f.pkgPath = "" ∧ f.tfsdkTag = t ∧
          t ≠ "-" ∧ isValidFieldName t = true) ∧
      (∀ k f, fields.get? k = some f → f.pkgPath = "" → f.tfsdkTag ≠ "-" →
        (f.tfsdkTag, k) ∈ m)) := by
  have hdef : getStructTags (GoValue.zero (GoType.structT fields)) path =
      getStructTagsLoop path fields fields 0 [] := rfl
  refine ⟨?_, ?_, ?_⟩
  · intro hbad
    obtain ⟨f, hf, hexp, hdash, hinv⟩ := hbad
    rw [hdef]
    rcases hres : getStructTagsLoop path fields fields 0 [] with err | m
    · rfl
    · exfalso
      obtain ⟨hne, hval⟩ := getStructTagsLoop_valid path fields fields 0 [] m hres
        f hf hexp hdash
      rcases hinv with hinv | hinv
      · exact hne hinv
      · rw [hval] at hinv
        cases hinv
  · intro hdup
    obtain ⟨k1, k2, f1, f2, hk, hg1, hg2, he1, he2, hd1, hd2, htag⟩ := hdup
    rw [hdef]
    rcases hres : getStructTagsLoop path fields fields 0 [] with err | m
    · rfl
    · exfalso
      have hm1 := getStructTagsLoop_complete path fields fields 0 [] m hres
        k1 f1 hg1 he1 hd1
      have hm2 := getStructTagsLoop_complete path fields fields 0 [] m hres
        k2 f2 hg2 he2 hd2
      rw [htag] at hm1
      have hnd := getStructTagsLoop_nodup path fields fields 0 [] m hres (by simp)
      have := nodup_keys_functional m f2.tfsdkTag (0 + k1) (0 + k2) hnd hm1 hm2
      omega
  · intro m hok
    rw [hdef] at hok
    constructor
    · intro t j hm
      rcases getStructTagsLoop_mem path fields fields 0 [] m hok t j hm with h | h
      · simp at h
      · obtain ⟨k, f, hget, hexp, htag, hdash, hne, hval, hj⟩ := h
        refine ⟨f, ?_, hexp, htag, hdash, hval⟩
        rw [hj, Nat.zero_add]
        exact hget
    · intro k f hget hexp hdash
      have := getStructTagsLoop_complete path fields fields 0 [] m hok k f hget hexp hdash
      rw [Nat.zero_add] at this
      exact this

/-- Witness for C2: an uppercase tag errors, a duplicated tag errors, and
a well-tagged struct maps the tag to its field index. -/
theorem getStructTags_spec_witness :
    exceptIsError (getStructTags
      (GoValue.zero (GoType.structT [⟨"Name", "", "Name"⟩])) AttrPath.empty) = true ∧
    exceptIsError (getStructTags
      (GoValue.zero (GoType.structT [⟨"A", "", "dup"⟩, ⟨"B", "", "dup"⟩])) AttrPath.empty) = true ∧
    (("name", 0) : String × Nat) ∈ [(("name" : String), (0 : Nat))] :=
  ⟨(getStructTags_spec [⟨"Name", "", "Name"⟩] AttrPath.empty).1
      ⟨⟨"Name", "", "Name"⟩, List.mem_singleton.mpr rfl, rfl, by decide, Or.inr rfl⟩,
   (getStructTags_spec [⟨"A", "", "dup"⟩, ⟨"B", "", "dup"⟩] AttrPath.empty).2.1
      ⟨0, 1, ⟨"A", "", "dup"⟩, ⟨"B", "", "dup"⟩, by decide, rfl, rfl, rfl, rfl,
       by decide, by decide, rfl⟩,
   ((getStructTags_spec [⟨"Name", "", "name"⟩] AttrPath.empty).2.2
      [("name", 0)] rfl).2 0 ⟨"Name", "", "name"⟩ rfl rfl (by decide)⟩
